import Mathlib

/-!
Verification of the AI procurement agent's search core and PDF ingestion
pipeline.

The search core (record store, embedding spaces, composite index, query
engine) is expressed in `src/main.py` as declarative configuration of the
`superlinked` framework; its operational semantics are modelled here from
the specification, instantiated with the exact configuration constants of
`src/main.py` (three spaces: a text space over `scope_summary`, a number
space over `price` with `min_value=0`, `max_value=1000000`, `mode=MAXIMUM`,
and a text space over `risks`; query parameters `scope_weight`,
`price_weight`, `risks_weight`, `scope_query`, `risks_query`, `limit`).

The PDF ingestion pipeline (`src/pdf_processor.py`) is embedded directly:
its external effects (the PDF loader, the JSON cache, the LLM extraction
chain, the clock) are passed in as an explicit environment, and console
error reports are modelled as an explicit log of structured entries.

Floats are modelled as rationals.
-/

namespace Procurement

/-- A vendor proposal record, after validation: the eight fields of the
`VendorProposal` schema in `src/main.py`. -/
structure ProposalRecord where
  id : Nat
  vendor_name : String
  project_name : String
  time_stamp : String
  price : ℚ
  delivery_timeline : String
  scope_summary : String
  risks : String
deriving DecidableEq

/-- A record as handed to the record store by an ingestion collaborator,
before validation: every non-id field may be absent. -/
structure RawRecord where
  id : Nat
  vendor_name : Option String
  project_name : Option String
  time_stamp : Option String
  price : Option ℚ
  delivery_timeline : Option String
  scope_summary : Option String
  risks : Option String
deriving DecidableEq

/-- Modelled from the spec: `put` "validates each record's required fields
are present and `price >= 0`". Returns the validated record, or `none`
when a required field is absent or the price is negative. -/
def RawRecord.validate (r : RawRecord) : Option ProposalRecord := do
  let vn ← r.vendor_name
  let pn ← r.project_name
  let ts ← r.time_stamp
  let pr ← r.price
  let dt ← r.delivery_timeline
  let ss ← r.scope_summary
  let rk ← r.risks
  if 0 ≤ pr then pure ⟨r.id, vn, pn, ts, pr, dt, ss, rk⟩ else none

/-- Preference direction of a bounded numeric space (`sl.Mode` in the
source: `MAXIMUM` is the configured value). -/
inductive Mode where
  | maximum
  | minimum
deriving DecidableEq

/-- Configuration of a bounded numeric space, as in
`sl.NumberSpace(number=..., min_value=0, max_value=1000000, mode=sl.Mode.MAXIMUM)`. -/
structure NumberSpaceConfig where
  min_value : ℚ
  max_value : ℚ
  mode : Mode
deriving DecidableEq

/-- Modelled from the spec: "all values are clamped/normalized into [0,1]
using `(value - min) / (max - min)`". -/
def NumberSpaceConfig.embed (c : NumberSpaceConfig) (v : ℚ) : ℚ :=
  (max c.min_value (min c.max_value v) - c.min_value) / (c.max_value - c.min_value)

/-- Modelled from the spec: the preference direction determines whether
1.0 or 0.0 is best; for `maximum` the similarity is the stored normalized
scalar directly, for `minimum` it is reversed. -/
def NumberSpaceConfig.simOfEmbedded (c : NumberSpaceConfig) (x : ℚ) : ℚ :=
  match c.mode with
  | .maximum => x
  | .minimum => 1 - x

/-- The price space configured in `src/main.py`:
`min_value=0, max_value=1000000, mode=sl.Mode.MAXIMUM`. -/
def price_space : NumberSpaceConfig :=
  { min_value := 0, max_value := 1000000, mode := Mode.maximum }

/-- The price space's embedded output for a raw price value. -/
def priceEmbed (v : ℚ) : ℚ := price_space.embed v

/-- The price space's raw similarity for a raw price value: the embedded
scalar read through the configured preference direction. -/
def priceSim (v : ℚ) : ℚ := price_space.simOfEmbedded (priceEmbed v)

/-- Modelled from the spec: a text embedding model, a deterministic
function from strings to vectors plus a similarity on vectors. The source
configures `sentence-transformers/all-MiniLM-L6-v2` for both text spaces;
the model itself is external, so it is a parameter. -/
structure TextModel (V : Type) where
  embed : String → V
  sim : V → V → ℚ

/-- One entry of the composite index: the full record plus one derived
vector/scalar per configured space (scope text space, price number space,
risks text space). -/
structure IndexEntry (V : Type) where
  record : ProposalRecord
  scope_vec : V
  price_val : ℚ
  risks_vec : V
deriving DecidableEq

/-- Modelled from the spec: each configured space computes its vector for
the record (recomputed on upsert). -/
def deriveEntry {V : Type} (m : TextModel V) (r : ProposalRecord) : IndexEntry V :=
  { record := r
    scope_vec := m.embed r.scope_summary
    price_val := priceEmbed r.price
    risks_vec := m.embed r.risks }

/-- The composite index state: records in insertion order, each with its
per-space vectors. -/
abbrev Store (V : Type) := List (IndexEntry V)

/-- Modelled from the spec: upsert by id — a put with an existing id
overwrites that record in place (re-upsert preserves original position);
a new id is appended. -/
def upsertOne {V : Type} (m : TextModel V) : Store V → ProposalRecord → Store V
  | [], r => [deriveEntry m r]
  | e :: rest, r =>
    if e.record.id = r.id then deriveEntry m r :: rest
    else e :: upsertOne m rest r

/-- Validation error listing the offending record ids of a rejected batch. -/
structure ValidationError where
  ids : List Nat
deriving DecidableEq

/-- The ids of the records of a batch that fail validation. -/
def offendingIds (batch : List RawRecord) : List Nat :=
  (batch.filter fun r => r.validate.isNone).map RawRecord.id

/-- Modelled from the spec: batch put — validates every record; if any
fails, the batch is rejected wholesale with a `ValidationError` listing
the offending record ids and the store is left unchanged; otherwise all
records are upserted. -/
def put {V : Type} (m : TextModel V) (s : Store V) (batch : List RawRecord) :
    Store V × Option ValidationError :=
  if offendingIds batch = [] then
    ((batch.filterMap RawRecord.validate).foldl (upsertOne m) s, none)
  else
    (s, some ⟨offendingIds batch⟩)

/-- A query specification, the wire shape of `src/main.py`'s
`procurement_query` parameters: optional text targets for the two text
spaces, one weight per space, and a result limit. -/
structure QuerySpec where
  scope_query : Option String
  risks_query : Option String
  scope_weight : ℚ
  price_weight : ℚ
  risks_weight : ℚ
  limit : Int
deriving DecidableEq

/-- Query failure: structurally invalid query spec. -/
inductive QueryError where
  | invalidQuery
deriving DecidableEq

/-- Raw similarity of a text space for a stored vector, given the query's
optional target for that space. -/
def textSim {V : Type} (m : TextModel V) (target : Option String) (vec : V) : ℚ :=
  match target with
  | some t => m.sim (m.embed t) vec
  | none => 0

/-- Modelled from the spec: the fused score of an indexed record is
`Σ_space (weight_space × raw_similarity_space)`, with no further
normalization. -/
def fusedScore {V : Type} (m : TextModel V) (q : QuerySpec) (e : IndexEntry V) : ℚ :=
  q.scope_weight * textSim m q.scope_query e.scope_vec
    + q.price_weight * price_space.simOfEmbedded e.price_val
    + q.risks_weight * textSim m q.risks_query e.risks_vec

/-- The ranking comparator: `a` ranks no worse than `b` when `a`'s fused
score is strictly greater, or the scores are equal and `a`'s id is no
greater (descending fused score, ties broken by id ascending). -/
def rankLEb {V : Type} (m : TextModel V) (q : QuerySpec) (a b : IndexEntry V) : Bool :=
  decide (fusedScore m q b < fusedScore m q a)
    || (decide (fusedScore m q a = fusedScore m q b) && decide (a.record.id ≤ b.record.id))

/-- Insertion into a list sorted by the comparator `le`. -/
def insertBy {α : Type} (le : α → α → Bool) (a : α) : List α → List α
  | [] => [a]
  | b :: l => if le a b then a :: b :: l else b :: insertBy le a l

/-- Insertion sort by the comparator `le`. -/
def sortBy {α : Type} (le : α → α → Bool) : List α → List α
  | [] => []
  | a :: l => insertBy le a (sortBy le l)

/-- Modelled from the spec: the query engine. Rejects a non-positive
limit, an all-zero weight vector, and a missing target for a text space
with non-zero weight; otherwise scores every indexed record, sorts
descending by fused score with ties broken by id ascending, and returns
the top `limit` records paired with their fused scores. -/
def execute {V : Type} (m : TextModel V) (s : Store V) (q : QuerySpec) :
    Except QueryError (List (ProposalRecord × ℚ)) :=
  if q.limit ≤ 0 then .error .invalidQuery
  else if q.scope_weight = 0 ∧ q.price_weight = 0 ∧ q.risks_weight = 0 then
    .error .invalidQuery
  else if (q.scope_weight ≠ 0 ∧ q.scope_query = none)
      ∨ (q.risks_weight ≠ 0 ∧ q.risks_query = none) then
    .error .invalidQuery
  else
    .ok (((sortBy (rankLEb m q) s).take q.limit.toNat).map fun e =>
      (e.record, fusedScore m q e))

/-- An operation against the running app: a batch put through the source,
or a query through the executor. -/
inductive Op where
  | put (batch : List RawRecord)
  | query (q : QuerySpec)

/-- The observable output of one operation. -/
inductive Out (V : Type) where
  | putRes (e : Option ValidationError)
  | queryRes (r : Except QueryError (List (ProposalRecord × ℚ)))

/-- Modelled from the spec: one step of the app's state machine — a put
mutates the store, a query reads it. -/
def step {V : Type} (m : TextModel V) (s : Store V) : Op → Store V × Out V
  | .put batch =>
    let (s', e) := put m s batch
    (s', .putRes e)
  | .query q => (s, .queryRes (execute m s q))

/-- Running a sequence of operations from a state, collecting outputs. -/
def runOps {V : Type} (m : TextModel V) (s : Store V) : List Op → Store V × List (Out V)
  | [] => (s, [])
  | op :: ops =>
    let (s', o) := step m s op
    let (s'', os) := runOps m s' ops
    (s'', o :: os)

/-! ## The PDF ingestion pipeline, `src/pdf_processor.py`

External effects are an explicit environment: the loader's outcome per
file, the JSON cache's state per file, the LLM extraction chain's outcome
per document content, and the clock. Console error prints are modelled as
structured log entries. -/

/-- The `pdf_info` dictionary built by `load_pdf_files` for one
successfully loaded PDF. -/
structure LoadedPdf where
  vendor_name : String
  page_count : Nat
  content : String
  file_size : Nat
deriving DecidableEq

/-- The structured output of the LLM extraction chain
(`ProposalExtraction` in `src/pdf_processor.py`). -/
structure Extracted where
  vendor_name : String
  project_name : String
  price : ℚ
  delivery_timeline : String
  scope_summary : String
  risks : String
deriving DecidableEq

/-- The environment of one `process_pdf_proposals` run: the directory
listing, the loader outcome per path, the JSON cache per path (`none` = no
saved JSON; `some (.ok p)` = saved JSON loads to `p`; `some (.error e)` =
loading the saved JSON raises `e`), the extraction chain outcome per
document content, and the current timestamp. -/
structure PdfEnv where
  files : List String
  load : String → Except String LoadedPdf
  cached : String → Option (Except String ProposalRecord)
  chain : String → Except String Extracted
  now : String

/-- A console error report of the pipeline, carrying the failing file's
path and the exception text (`❌ Error loading {pdf_path}: {e}` /
`❌ Error loading JSON for ...: {e}`). -/
inductive LogEntry where
  | loadError (path msg : String)
  | jsonError (path msg : String)
deriving DecidableEq

/-- The path a log entry reports about. -/
def LogEntry.path : LogEntry → String
  | .loadError p _ => p
  | .jsonError p _ => p

/-- `load_pdf_files`: loads every PDF of the directory listing; a file
whose load raises is reported and skipped (`continue`). Returns the loaded
`pdf_info`s (tagged with their path) in listing order, plus the error log. -/
def loadAux (env : PdfEnv) : List String → List (String × LoadedPdf) × List LogEntry
  | [] => ([], [])
  | p :: ps =>
    match env.load p with
    | .ok pdf => ((p, pdf) :: (loadAux env ps).1, (loadAux env ps).2)
    | .error e => ((loadAux env ps).1, LogEntry.loadError p e :: (loadAux env ps).2)

/-- `load_pdf_files`, applied to the directory listing. -/
def load_pdf_files (env : PdfEnv) : List (String × LoadedPdf) × List LogEntry :=
  loadAux env env.files

/-- The `try`/`except` tail of `extract_proposal_data_simple`, reached
once the code before the `try` has succeeded: runs the extraction chain
on the document; on success builds the record from the chain's output, on
any exception falls back to a placeholder record. Either way the given
`proposal_id` becomes the record's id and the eight schema fields are
populated. (`process_pdf_proposals` is modelled over this tail, i.e. for
runs whose setup succeeds; a setup exception would abort the whole
pipeline in the source.) -/
def extract_proposal_data_simple (chainResult : Except String Extracted)
    (pdfVendor : Option String) (now : String) (proposal_id : Nat) : ProposalRecord :=
  match chainResult with
  | .ok ex =>
    { id := proposal_id
      vendor_name := ex.vendor_name
      project_name := ex.project_name
      time_stamp := now
      price := ex.price
      delivery_timeline := ex.delivery_timeline
      scope_summary := ex.scope_summary
      risks := ex.risks }
  | .error _ =>
    { id := proposal_id
      vendor_name := pdfVendor.getD "Unknown Vendor"
      project_name := "Project Analysis Failed"
      time_stamp := now
      price := 0
      delivery_timeline := "Could not extract timeline"
      scope_summary := "Could not extract scope"
      risks := "Could not extract risks" }

/-- `extract_proposal_data_simple` in full: the code before the `try` —
`load_dotenv` and the `ChatOpenAI`, output-parser, prompt and `LLMChain`
constructions — runs unprotected, so an exception there (for instance a
missing `OPENAI_API_KEY` raising at `ChatOpenAI` construction) propagates
uncaught and no record is returned; only when that setup succeeds does
the protected tail run. The setup's outcome is an explicit input. -/
def extract_proposal_data_full (setup : Except String Unit)
    (chainResult : Except String Extracted) (pdfVendor : Option String)
    (now : String) (proposal_id : Nat) : Except String ProposalRecord :=
  match setup with
  | .error e => .error e
  | .ok _ => .ok (extract_proposal_data_simple chainResult pdfVendor now proposal_id)

/-- The loop body of `process_pdf_proposals` over the loaded PDFs,
carrying the 1-based enumeration counter `i` (which advances on every
iteration, skipped files included): a file with a saved JSON keeps the
record stored there (and is dropped with a report if that JSON fails to
load); a file without one is extracted with `proposal_id = i`. Proposals
are tagged with their path. -/
def processLoop (env : PdfEnv) : List (String × LoadedPdf) → Nat →
    List (String × ProposalRecord) × List LogEntry
  | [], _ => ([], [])
  | (path, pdf) :: rest, i =>
    match env.cached path with
    | some (.ok p) =>
      ((path, p) :: (processLoop env rest (i + 1)).1, (processLoop env rest (i + 1)).2)
    | some (.error e) =>
      ((processLoop env rest (i + 1)).1,
        LogEntry.jsonError path e :: (processLoop env rest (i + 1)).2)
    | none =>
      ((path, extract_proposal_data_simple (env.chain pdf.content)
          (some pdf.vendor_name) env.now i) :: (processLoop env rest (i + 1)).1,
        (processLoop env rest (i + 1)).2)

/-- `process_pdf_proposals`: the full pipeline — load the directory's
PDFs, then walk them with the 1-based counter. Returns the proposals
(tagged with their paths) and the accumulated error log. -/
def process_pdf_proposals (env : PdfEnv) :
    List (String × ProposalRecord) × List LogEntry :=
  ((processLoop env (load_pdf_files env).1 1).1,
    (load_pdf_files env).2 ++ (processLoop env (load_pdf_files env).1 1).2)

/-- The per-item outcome of the processing loop, as a function of the
item's 1-based enumeration index: a cached file contributes its stored
record (or nothing, when its JSON fails to load), a new file contributes a
freshly extracted record whose id is the index. -/
def itemOutcome (env : PdfEnv) : Nat × (String × LoadedPdf) →
    Option (String × ProposalRecord)
  | (i, (path, pdf)) =>
    match env.cached path with
    | some (.ok p) => some (path, p)
    | some (.error _) => none
    | none =>
      some (path, extract_proposal_data_simple (env.chain pdf.content)
        (some pdf.vendor_name) env.now i)

instance {ε α : Type} [DecidableEq ε] [DecidableEq α] : DecidableEq (Except ε α) := fun a b =>
  match a, b with
  | .ok x, .ok y =>
    if h : x = y then isTrue (by rw [h]) else isFalse (fun hc => h (Except.ok.inj hc))
  | .error x, .error y =>
    if h : x = y then isTrue (by rw [h]) else isFalse (fun hc => h (Except.error.inj hc))
  | .ok _, .error _ => isFalse (fun hc => Except.noConfusion hc)
  | .error _, .ok _ => isFalse (fun hc => Except.noConfusion hc)

/-- A degenerate text model over rational "vectors", used to instantiate
the engine on concrete inputs: it embeds every string to 0 and scores
every vector pair 0, so only the price space contributes. -/
def constModel : TextModel ℚ := { embed := fun _ => 0, sim := fun _ _ => 0 }

/-- A concrete record used to instantiate the theorems. -/
def recA : ProposalRecord :=
  { id := 1, vendor_name := "Acme Corp", project_name := "Website"
    time_stamp := "2024-01-15T10:00:00Z", price := 500000
    delivery_timeline := "6 months", scope_summary := "web shop", risks := "delays" }

/-- A second concrete record used to instantiate the theorems. -/
def recB : ProposalRecord :=
  { id := 2, vendor_name := "TechSolutions Inc", project_name := "Mobile App"
    time_stamp := "2024-01-16T14:30:00Z", price := 750000
    delivery_timeline := "4 months", scope_summary := "mobile app", risks := "approval" }

/-- A concrete two-entry index over `constModel`. -/
def storeAB : Store ℚ := [deriveEntry constModel recA, deriveEntry constModel recB]

/-- A concrete price-only query with limit 2. -/
def qPrice : QuerySpec :=
  { scope_query := none, risks_query := none
    scope_weight := 0, price_weight := 1, risks_weight := 0, limit := 2 }

/-- A raw record with a missing required field (no vendor name). -/
def rawBad : RawRecord :=
  { id := 7, vendor_name := none, project_name := some "P"
    time_stamp := some "2024-01-20T00:00:00Z", price := some 10
    delivery_timeline := some "2 months", scope_summary := some "s", risks := some "r" }

/-- `recA` with a new price: same id, changed field values. -/
def recA2 : ProposalRecord := { recA with price := 999 }

/-- A concrete structurally invalid query: `limit = 0`. -/
def qLimit0 : QuerySpec :=
  { scope_query := none, risks_query := none
    scope_weight := 1, price_weight := 0, risks_weight := 0, limit := 0 }

/-- The identity of one of the three configured spaces. -/
inductive SpaceId where
  | scope
  | price
  | risks

/-- Set one space's weight to 0, keeping its target untouched. -/
def setWeightZero : SpaceId → QuerySpec → QuerySpec
  | .scope, q => { q with scope_weight := 0 }
  | .price, q => { q with price_weight := 0 }
  | .risks, q => { q with risks_weight := 0 }

/-- Omit one space from the query entirely: weight 0 and no target (the
price space has no target to begin with). -/
def omitSpace : SpaceId → QuerySpec → QuerySpec
  | .scope, q => { q with scope_weight := 0, scope_query := none }
  | .price, q => { q with price_weight := 0 }
  | .risks, q => { q with risks_weight := 0, risks_query := none }

/-- A stub loaded PDF used to instantiate the pipeline theorems. -/
def pdfStub : LoadedPdf :=
  { vendor_name := "Vendor B", page_count := 1
    content := "proposal text", file_size := 10 }

/-- A pipeline environment whose only file has a saved JSON that fails to
load: the file is dropped, with a report. -/
def envW : PdfEnv :=
  { files := ["a.pdf"]
    load := fun _ => .ok pdfStub
    cached := fun _ => some (.error "corrupt json")
    chain := fun _ => .error "no api key"
    now := "2024-01-20T00:00:00Z" }

/-- A pipeline environment whose first file fails to load while the
second, unprocessed before, loads fine: the second file is enumerated at
position 1 although it is second in the directory listing. -/
def envC : PdfEnv :=
  { files := ["a.pdf", "b.pdf"]
    load := fun p => if p = "a.pdf" then .error "cannot open" else .ok pdfStub
    cached := fun _ => none
    chain := fun _ => .error "no api key"
    now := "2024-01-20T00:00:00Z" }

/-- A pipeline environment whose first file carries a saved JSON with
stored id 2 while the second file is new: the new file is enumerated at
position 2, so both proposals of the batch end up with id 2. -/
def envD : PdfEnv :=
  { files := ["a.pdf", "b.pdf"]
    load := fun _ => .ok pdfStub
    cached := fun p => if p = "a.pdf" then some (.ok recB) else none
    chain := fun _ => .error "no api key"
    now := "2024-01-20T00:00:00Z" }

/-! ## Helper lemmas on the sorting routine and the ranking comparator -/

theorem mem_insertBy {α : Type} (le : α → α → Bool) (a x : α) (l : List α) :
    x ∈ insertBy le a l ↔ x = a ∨ x ∈ l := by
  induction l with
  | nil => simp [insertBy]
  | cons b l ih =>
    simp only [insertBy]
    split
    · simp [List.mem_cons]
    · simp only [List.mem_cons, ih]
      tauto

theorem mem_sortBy {α : Type} (le : α → α → Bool) (x : α) (l : List α) :
    x ∈ sortBy le l ↔ x ∈ l := by
  induction l with
  | nil => simp [sortBy]
  | cons a l ih => simp [sortBy, mem_insertBy, ih]

theorem pairwise_insertBy {α : Type} {le : α → α → Bool}
    (total : ∀ a b, le a b = true ∨ le b a = true)
    (trans : ∀ a b c, le a b = true → le b c = true → le a c = true)
    (a : α) {l : List α} (h : l.Pairwise fun x y => le x y = true) :
    (insertBy le a l).Pairwise fun x y => le x y = true := by
  induction l with
  | nil => simp [insertBy]
  | cons b l ih =>
    rw [List.pairwise_cons] at h
    simp only [insertBy]
    split
    · rw [List.pairwise_cons]
      refine ⟨?_, List.pairwise_cons.2 h⟩
      intro y hy
      rcases List.mem_cons.1 hy with rfl | hy
      · assumption
      · exact trans a b y (by assumption) (h.1 y hy)
    · rw [List.pairwise_cons]
      constructor
      · intro y hy
        rcases (mem_insertBy le a y l).1 hy with rfl | hy
        · rcases total y b with hyb | hby
          · exact absurd hyb (by simp_all)
          · exact hby
        · exact h.1 y hy
      · exact ih h.2

theorem pairwise_sortBy {α : Type} {le : α → α → Bool}
    (total : ∀ a b, le a b = true ∨ le b a = true)
    (trans : ∀ a b c, le a b = true → le b c = true → le a c = true)
    (l : List α) : (sortBy le l).Pairwise fun x y => le x y = true := by
  induction l with
  | nil => simp [sortBy]
  | cons a l ih => exact pairwise_insertBy total trans a ih

theorem rankLEb_iff {V : Type} (m : TextModel V) (q : QuerySpec) (a b : IndexEntry V) :
    rankLEb m q a b = true ↔
      fusedScore m q b < fusedScore m q a
        ∨ (fusedScore m q a = fusedScore m q b ∧ a.record.id ≤ b.record.id) := by
  simp [rankLEb]

theorem rankLEb_total {V : Type} (m : TextModel V) (q : QuerySpec) (a b : IndexEntry V) :
    rankLEb m q a b = true ∨ rankLEb m q b a = true := by
  simp only [rankLEb_iff]
  rcases lt_trichotomy (fusedScore m q a) (fusedScore m q b) with h | h | h
  · exact Or.inr (Or.inl h)
  · rcases Nat.le_total a.record.id b.record.id with hid | hid
    · exact Or.inl (Or.inr ⟨h, hid⟩)
    · exact Or.inr (Or.inr ⟨h.symm, hid⟩)
  · exact Or.inl (Or.inl h)

theorem rankLEb_trans {V : Type} (m : TextModel V) (q : QuerySpec) (a b c : IndexEntry V)
    (h₁ : rankLEb m q a b = true) (h₂ : rankLEb m q b c = true) :
    rankLEb m q a c = true := by
  simp only [rankLEb_iff] at h₁ h₂ ⊢
  rcases h₁ with h₁ | ⟨h₁, h₁'⟩ <;> rcases h₂ with h₂ | ⟨h₂, h₂'⟩
  · exact Or.inl (lt_trans h₂ h₁)
  · exact Or.inl (h₂ ▸ h₁)
  · exact Or.inl (h₁ ▸ h₂)
  · exact Or.inr ⟨h₁.trans h₂, h₁'.trans h₂'⟩

/-! ## Claim theorems -/

/-- C1: for every indexed record and every query spec, the query engine
computes the record's fused score as the sum over spaces of the space's
weight times the space's raw similarity — with no further normalization of
the fused score — and returns the records sorted descending by fused
score, with ties broken by id ascending. -/
theorem execute_fused_score_and_ranking {V : Type} (m : TextModel V) (s : Store V)
    (q : QuerySpec) (res : List (ProposalRecord × ℚ))
    (h : execute m s q = .ok res) :
    (∀ p ∈ res, ∃ e ∈ s, e.record = p.1 ∧ p.2 = fusedScore m q e)
      ∧ res.Pairwise (fun p₁ p₂ => p₂.2 < p₁.2 ∨ (p₁.2 = p₂.2 ∧ p₁.1.id ≤ p₂.1.id))
      ∧ res = ((sortBy (rankLEb m q) s).take q.limit.toNat).map
          (fun e => (e.record, fusedScore m q e)) := by
  unfold execute at h
  split_ifs at h
  rw [Except.ok.injEq] at h
  subst h
  refine ⟨?_, ?_, rfl⟩
  · intro p hp
    rw [List.mem_map] at hp
    obtain ⟨e, he, rfl⟩ := hp
    exact ⟨e, (mem_sortBy _ _ _).1 ((List.take_sublist _ _).mem he), rfl, rfl⟩
  · rw [List.pairwise_map]
    refine List.Pairwise.imp ?_
      ((pairwise_sortBy (rankLEb_total m q) (rankLEb_trans m q) s).sublist
        (List.take_sublist _ _))
    intro e₁ e₂ hle
    exact (rankLEb_iff m q e₁ e₂).1 hle

/-- Witness for C1: on a concrete two-record index (prices 500000 and
750000) and a price-only query, the engine's output satisfies the
hypothesis of `execute_fused_score_and_ranking`, and the theorem applies. -/
theorem execute_fused_score_and_ranking_witness :
    execute constModel storeAB qPrice = .ok [(recB, 3/4), (recA, 1/2)]
      ∧ ((∀ p ∈ [(recB, (3:ℚ)/4), (recA, 1/2)], ∃ e ∈ storeAB,
            e.record = p.1 ∧ p.2 = fusedScore constModel qPrice e)
        ∧ List.Pairwise
            (fun p₁ p₂ => p₂.2 < p₁.2 ∨ (p₁.2 = p₂.2 ∧ p₁.1.id ≤ p₂.1.id))
            [(recB, (3:ℚ)/4), (recA, 1/2)]
        ∧ [(recB, (3:ℚ)/4), (recA, 1/2)] =
            ((sortBy (rankLEb constModel qPrice) storeAB).take qPrice.limit.toNat).map
              (fun e => (e.record, fusedScore constModel qPrice e))) :=
  have h : execute constModel storeAB qPrice = .ok [(recB, 3/4), (recA, 1/2)] := by
    norm_num [execute, qPrice, storeAB, constModel, recA, recB, deriveEntry, priceEmbed,
      price_space, NumberSpaceConfig.embed, NumberSpaceConfig.simOfEmbedded, sortBy, insertBy,
      rankLEb, fusedScore, textSim]
  ⟨h, execute_fused_score_and_ranking constModel storeAB qPrice _ h⟩

/-- C2: the price space's embedded output always lies in [0,1], equals
`(value - min) / (max - min)` with clamping for the configured
`min_value = 0`, `max_value = 1000000`, and — the configured direction
being prefer-maximum — the space's similarity is the embedded output
itself and is non-decreasing in the raw price value. -/
theorem price_space_range_formula_monotone (v w : ℚ) (h : v ≤ w) :
    (0 ≤ priceEmbed v ∧ priceEmbed v ≤ 1)
      ∧ priceEmbed v = (max 0 (min 1000000 v) - 0) / (1000000 - 0)
      ∧ price_space = { min_value := 0, max_value := 1000000, mode := Mode.maximum }
      ∧ priceSim v = priceEmbed v
      ∧ priceSim v ≤ priceSim w := by
  have hform : ∀ x : ℚ, priceEmbed x = max 0 (min 1000000 x) / 1000000 := by
    intro x
    simp [priceEmbed, NumberSpaceConfig.embed, price_space]
  refine ⟨⟨?_, ?_⟩, ?_, rfl, rfl, ?_⟩
  · rw [hform]
    positivity
  · rw [hform]
    rw [div_le_one (by norm_num)]
    exact max_le (by norm_num) (min_le_left _ _)
  · rw [hform]
    norm_num
  · show priceEmbed v ≤ priceEmbed w
    rw [hform, hform]
    have hnum : max 0 (min 1000000 v) ≤ max 0 (min 1000000 w) :=
      max_le_max le_rfl (min_le_min le_rfl h)
    gcongr

/-- Witness for C2 at the concrete prices 3 ≤ 5. -/
theorem price_space_range_formula_monotone_witness :
    (3 : ℚ) ≤ 5
      ∧ ((0 ≤ priceEmbed 3 ∧ priceEmbed 3 ≤ 1)
        ∧ priceEmbed 3 = (max 0 (min 1000000 3) - 0) / (1000000 - 0)
        ∧ price_space = { min_value := 0, max_value := 1000000, mode := Mode.maximum }
        ∧ priceSim 3 = priceEmbed 3
        ∧ priceSim 3 ≤ priceSim 5) :=
  ⟨by norm_num, price_space_range_formula_monotone 3 5 (by norm_num)⟩

/-- C3: a structurally invalid query spec — non-positive limit, every
space weight exactly 0, or a non-zero-weight text space without a target —
makes `execute` fail immediately with the invalid-query error, returning
no results. -/
theorem execute_rejects_invalid_query {V : Type} (m : TextModel V) (s : Store V)
    (q : QuerySpec)
    (h : q.limit ≤ 0
      ∨ (q.scope_weight = 0 ∧ q.price_weight = 0 ∧ q.risks_weight = 0)
      ∨ ((q.scope_weight ≠ 0 ∧ q.scope_query = none)
          ∨ (q.risks_weight ≠ 0 ∧ q.risks_query = none))) :
    execute m s q = .error .invalidQuery := by
  unfold execute
  split_ifs with h₁ h₂ h₃
  · rfl
  · rfl
  · rfl
  · tauto

/-- Witness for C3: the limit-0 query is rejected on the concrete index. -/
theorem execute_rejects_invalid_query_witness :
    (qLimit0.limit ≤ 0
      ∨ (qLimit0.scope_weight = 0 ∧ qLimit0.price_weight = 0 ∧ qLimit0.risks_weight = 0)
      ∨ ((qLimit0.scope_weight ≠ 0 ∧ qLimit0.scope_query = none)
          ∨ (qLimit0.risks_weight ≠ 0 ∧ qLimit0.risks_query = none)))
      ∧ execute constModel storeAB qLimit0 = .error .invalidQuery :=
  ⟨Or.inl (by norm_num [qLimit0]),
   execute_rejects_invalid_query constModel storeAB qLimit0 (Or.inl (by norm_num [qLimit0]))⟩

/-- C4: for every query spec and every space, setting that space's weight
to 0 yields a result (ranking, scores, and error behaviour alike)
identical to omitting the space — weight 0 and no target — regardless of
the target the weight-0 query carries; in particular a zero-weight space
with an omitted target never causes the query to fail. -/
theorem weight_zero_neutrality {V : Type} (m : TextModel V) (s : Store V)
    (q : QuerySpec) (sp : SpaceId) :
    execute m s (setWeightZero sp q) = execute m s (omitSpace sp q) := by
  cases sp with
  | price => rfl
  | scope =>
    have hf : fusedScore m (setWeightZero .scope q) = fusedScore m (omitSpace .scope q) := by
      funext e
      simp [fusedScore, setWeightZero, omitSpace]
    have hcmp : rankLEb m (setWeightZero .scope q) = rankLEb m (omitSpace .scope q) := by
      funext a b
      simp only [rankLEb, hf]
    unfold execute
    refine if_congr Iff.rfl rfl (if_congr Iff.rfl rfl (if_congr ?_ rfl ?_))
    · simp [setWeightZero, omitSpace]
    · rw [hcmp, hf]
      exact rfl
  | risks =>
    have hf : fusedScore m (setWeightZero .risks q) = fusedScore m (omitSpace .risks q) := by
      funext e
      simp [fusedScore, setWeightZero, omitSpace]
    have hcmp : rankLEb m (setWeightZero .risks q) = rankLEb m (omitSpace .risks q) := by
      funext a b
      simp only [rankLEb, hf]
    unfold execute
    refine if_congr Iff.rfl rfl (if_congr Iff.rfl rfl (if_congr ?_ rfl ?_))
    · simp [setWeightZero, omitSpace]
    · rw [hcmp, hf]
      exact rfl

/-- C5: a batch containing any record with a missing required field or a
negative price makes `put` fail with a `ValidationError` listing exactly
the offending record ids, leaving the store untouched (no partial batch
commit); a record is offending precisely when some required field is
absent or its price is negative. -/
theorem put_rejects_invalid_batch {V : Type} (m : TextModel V) (s : Store V)
    (batch : List RawRecord) (h : ∃ r ∈ batch, r.validate = none) :
    put m s batch = (s, some ⟨offendingIds batch⟩)
      ∧ (∀ n, n ∈ offendingIds batch ↔ ∃ r ∈ batch, r.id = n ∧ r.validate = none)
      ∧ (∀ r : RawRecord, r.validate = none ↔
          (r.vendor_name = none ∨ r.project_name = none ∨ r.time_stamp = none
            ∨ r.price = none ∨ r.delivery_timeline = none ∨ r.scope_summary = none
            ∨ r.risks = none ∨ ∃ p, r.price = some p ∧ p < 0)) := by
  refine ⟨?_, ?_, ?_⟩
  · unfold put
    rw [if_neg]
    obtain ⟨r, hr, hv⟩ := h
    intro heq
    have : r.id ∈ offendingIds batch :=
      List.mem_map.2 ⟨r, List.mem_filter.2 ⟨hr, by simp [hv]⟩, rfl⟩
    rw [heq] at this
    exact absurd this (List.not_mem_nil _)
  · intro n
    simp only [offendingIds, List.mem_map, List.mem_filter,
      Option.isNone_iff_eq_none]
    constructor
    · rintro ⟨r, ⟨hr, hv⟩, rfl⟩
      exact ⟨r, hr, rfl, hv⟩
    · rintro ⟨r, hr, rfl, hv⟩
      exact ⟨r, ⟨hr, hv⟩, rfl⟩
  · intro r
    obtain ⟨i, vn, pn, ts, pr, dt, ss, rk⟩ := r
    cases vn <;> cases pn <;> cases ts <;> cases pr <;> cases dt <;> cases ss <;> cases rk <;>
      simp [RawRecord.validate]

/-- Witness for C5: a one-record batch whose record lacks its vendor name
is rejected with that record's id, and the store stays empty. -/
theorem put_rejects_invalid_batch_witness :
    (∃ r ∈ [rawBad], r.validate = none)
      ∧ (put constModel ([] : Store ℚ) [rawBad] = ([], some ⟨offendingIds [rawBad]⟩)
        ∧ (∀ n, n ∈ offendingIds [rawBad] ↔ ∃ r ∈ [rawBad], r.id = n ∧ r.validate = none)
        ∧ (∀ r : RawRecord, r.validate = none ↔
            (r.vendor_name = none ∨ r.project_name = none ∨ r.time_stamp = none
              ∨ r.price = none ∨ r.delivery_timeline = none ∨ r.scope_summary = none
              ∨ r.risks = none ∨ ∃ p, r.price = some p ∧ p < 0))) :=
  ⟨⟨rawBad, by simp, rfl⟩,
   put_rejects_invalid_batch constModel [] [rawBad] ⟨rawBad, by simp, rfl⟩⟩

/-- C6: upserting a record whose id already exists overwrites that entry
in place with the record and its re-derived per-space vectors — it does
not append a second entry, the store's id sequence is unchanged (so ids
stay unique), and the only entry carrying that id afterwards is derived
entirely from the new record, so every subsequent query reflects only the
new field values. -/
theorem upsert_overwrites {V : Type} (m : TextModel V) (s : Store V) (r : ProposalRecord)
    (h₁ : (s.map fun e => e.record.id).Nodup)
    (h₂ : r.id ∈ s.map fun e => e.record.id) :
    ((upsertOne m s r).map fun e => e.record.id) = (s.map fun e => e.record.id)
      ∧ (∀ e ∈ upsertOne m s r, e.record.id = r.id → e = deriveEntry m r)
      ∧ ((upsertOne m s r).map fun e => e.record.id).Nodup := by
  induction s with
  | nil => simp at h₂
  | cons e rest ih =>
    rw [List.map_cons, List.nodup_cons] at h₁
    rw [List.map_cons, List.mem_cons] at h₂
    by_cases heq : e.record.id = r.id
    · have hids : ((upsertOne m (e :: rest) r).map fun x => x.record.id) =
          ((e :: rest).map fun x => x.record.id) := by
        simp [upsertOne, heq, deriveEntry]
      refine ⟨hids, ?_, ?_⟩
      · intro x hx hxid
        rw [upsertOne, if_pos heq] at hx
        rcases List.mem_cons.1 hx with rfl | hx
        · rfl
        · exact absurd (hxid ▸ List.mem_map.2 ⟨x, hx, rfl⟩) (heq ▸ h₁.1)
      · rw [hids]
        exact List.nodup_cons.2 h₁
    · have hmem : r.id ∈ rest.map fun x => x.record.id := by
        rcases h₂ with h₂ | h₂
        · exact absurd h₂.symm heq
        · exact h₂
      obtain ⟨ih1, ih2, ih3⟩ := ih h₁.2 hmem
      have hstep : upsertOne m (e :: rest) r = e :: upsertOne m rest r := by
        rw [upsertOne, if_neg heq]
      refine ⟨?_, ?_, ?_⟩
      · rw [hstep, List.map_cons, ih1, List.map_cons]
      · intro x hx hxid
        rw [hstep] at hx
        rcases List.mem_cons.1 hx with rfl | hx
        · exact absurd hxid heq
        · exact ih2 x hx hxid
      · rw [hstep, List.map_cons]
        exact List.nodup_cons.2 ⟨by rw [ih1]; exact h₁.1, ih3⟩

/-- Witness for C6: overwriting the stored record with id 1 by a
same-id record with a new price replaces the entry in place. -/
theorem upsert_overwrites_witness :
    (([deriveEntry constModel recA].map fun e => e.record.id).Nodup
        ∧ recA2.id ∈ [deriveEntry constModel recA].map fun e => e.record.id)
      ∧ (((upsertOne constModel [deriveEntry constModel recA] recA2).map
            fun e => e.record.id) =
          ([deriveEntry constModel recA].map fun e => e.record.id)
        ∧ (∀ e ∈ upsertOne constModel [deriveEntry constModel recA] recA2,
            e.record.id = recA2.id → e = deriveEntry constModel recA2)
        ∧ ((upsertOne constModel [deriveEntry constModel recA] recA2).map
            fun e => e.record.id).Nodup) :=
  ⟨⟨by simp, by simp [recA2, recA, deriveEntry]⟩,
   upsert_overwrites constModel [deriveEntry constModel recA] recA2
     (by simp) (by simp [recA2, recA, deriveEntry])⟩

/-- C7: the query engine is stateless — running any sequence of queries
leaves the index exactly as it was, and every query's output is the pure
function `execute` of the original index contents and that query's spec
alone (so repeating a query spec on an unchanged index repeats its ordered
result list). -/
theorem execute_stateless {V : Type} (m : TextModel V) (s : Store V)
    (qs : List QuerySpec) :
    runOps m s (qs.map Op.query) =
      (s, qs.map fun q => Out.queryRes (execute m s q)) := by
  induction qs with
  | nil => rfl
  | cons q qs ih => simp [runOps, step, ih]

theorem loadAux_covers (env : PdfEnv) (ps : List String) (p : String) (hp : p ∈ ps) :
    (∃ pdf, (p, pdf) ∈ (loadAux env ps).1)
      ∨ ∃ e, LogEntry.loadError p e ∈ (loadAux env ps).2 := by
  induction ps with
  | nil => cases hp
  | cons a ps ih =>
    rcases List.mem_cons.1 hp with rfl | hp
    · cases hload : env.load p with
      | ok pdf => exact Or.inl ⟨pdf, by simp [loadAux, hload]⟩
      | error e => exact Or.inr ⟨e, by simp [loadAux, hload]⟩
    · rcases ih hp with ⟨pdf, hmem⟩ | ⟨e, hmem⟩
      · refine Or.inl ⟨pdf, ?_⟩
        cases hload : env.load a <;>
          simp [loadAux, hload, hmem]
      · refine Or.inr ⟨e, ?_⟩
        cases hload : env.load a <;>
          simp [loadAux, hload, hmem]

theorem processLoop_covers (env : PdfEnv) (pdfs : List (String × LoadedPdf)) (i : Nat)
    (path : String) (pdf : LoadedPdf) (hmem : (path, pdf) ∈ pdfs) :
    (∃ pr, (path, pr) ∈ (processLoop env pdfs i).1)
      ∨ ∃ e, LogEntry.jsonError path e ∈ (processLoop env pdfs i).2 := by
  induction pdfs generalizing i with
  | nil => cases hmem
  | cons hd rest ih =>
    rcases List.mem_cons.1 hmem with heq | htail
    · subst heq
      cases hc : env.cached path with
      | none =>
        exact Or.inl ⟨extract_proposal_data_simple (env.chain pdf.content)
          (some pdf.vendor_name) env.now i, by simp [processLoop, hc]⟩
      | some r =>
        cases r with
        | ok pr => exact Or.inl ⟨pr, by simp [processLoop, hc]⟩
        | error e => exact Or.inr ⟨e, by simp [processLoop, hc]⟩
    · obtain ⟨hpath, hpdf⟩ := hd
      rcases ih (i + 1) htail with ⟨pr, hpr⟩ | ⟨e, he⟩
      · refine Or.inl ⟨pr, ?_⟩
        cases hc : env.cached hpath with
        | none => simp [processLoop, hc, hpr]
        | some r => cases r <;> simp [processLoop, hc, hpr]
      · refine Or.inr ⟨e, ?_⟩
        cases hc : env.cached hpath with
        | none => simp [processLoop, hc, he]
        | some r => cases r <;> simp [processLoop, hc, he]

theorem processLoop_fst (env : PdfEnv) (pdfs : List (String × LoadedPdf)) (i : Nat) :
    (processLoop env pdfs i).1 = (List.enumFrom i pdfs).filterMap (itemOutcome env) := by
  induction pdfs generalizing i with
  | nil => rfl
  | cons hd rest ih =>
    obtain ⟨path, pdf⟩ := hd
    cases hc : env.cached path with
    | none => simp [processLoop, hc, itemOutcome, List.enumFrom, ih (i + 1)]
    | some r =>
      cases r <;> simp [processLoop, hc, itemOutcome, List.enumFrom, ih (i + 1)]

/-- C8: no record is silently dropped — every file of the ingestion run's
directory listing either contributes a proposal to the returned batch or
is reported in an explicit error entry naming that file (the report also
carries the failure's exception text). -/
theorem ingestion_failures_reported (env : PdfEnv) (path : String)
    (hp : path ∈ env.files) :
    (∃ pr, (path, pr) ∈ (process_pdf_proposals env).1)
      ∨ ∃ entry ∈ (process_pdf_proposals env).2, entry.path = path := by
  rcases loadAux_covers env env.files path hp with ⟨pdf, hmem⟩ | ⟨e, hmem⟩
  · rcases processLoop_covers env (load_pdf_files env).1 1 path pdf hmem with
      ⟨pr, h⟩ | ⟨e, h⟩
    · exact Or.inl ⟨pr, h⟩
    · exact Or.inr ⟨.jsonError path e, List.mem_append_right _ h, rfl⟩
  · exact Or.inr ⟨.loadError path e, List.mem_append_left _ hmem, rfl⟩

/-- Witness for C8: in the environment whose single file's saved JSON is
corrupt, the file is covered — here by an explicit report. -/
theorem ingestion_failures_reported_witness :
    "a.pdf" ∈ envW.files
      ∧ ((∃ pr, ("a.pdf", pr) ∈ (process_pdf_proposals envW).1)
        ∨ ∃ entry ∈ (process_pdf_proposals envW).2, entry.path = "a.pdf") :=
  ⟨by simp [envW], ingestion_failures_reported envW "a.pdf" (by simp [envW])⟩

/-- Counterexample to C9 as stated: the source's `try` covers only the
chain run, so a failure in the setup before it — here a missing
`OPENAI_API_KEY` raising at `ChatOpenAI` construction —
makes `extract_proposal_data_simple` raise instead of returning a
fallback record: no record at all is returned for this input. -/
theorem extract_setup_raise_cex :
    extract_proposal_data_full
        (.error "ValidationError: OPENAI_API_KEY not set")
        (.error "chain not run") (some "Acme Corp") "2024" 4 =
      .error "ValidationError: OPENAI_API_KEY not set" :=
  rfl

/-- C9 (amended): if the setup before the `try` succeeds,
`extract_proposal_data_simple` never raises — its protected tail always
returns a record carrying the given `proposal_id` and all eight schema
fields, and when the AI extraction chain fails with any exception that
record is the fallback: price 0.0, the fixed placeholder strings for
project name, timeline, scope and risks, and the pdf's vendor name. If
the setup itself raises, the exception propagates uncaught instead. -/
theorem extract_total_after_setup (setup : Except String Unit)
    (chain : Except String Extracted) (v : Option String) (now : String) (pid : Nat) :
    (∀ u, setup = .ok u →
        extract_proposal_data_full setup chain v now pid =
          .ok (extract_proposal_data_simple chain v now pid))
      ∧ (extract_proposal_data_simple chain v now pid).id = pid
      ∧ (∀ e, chain = .error e →
          extract_proposal_data_simple chain v now pid =
            { id := pid, vendor_name := v.getD "Unknown Vendor"
              project_name := "Project Analysis Failed", time_stamp := now, price := 0
              delivery_timeline := "Could not extract timeline"
              scope_summary := "Could not extract scope"
              risks := "Could not extract risks" })
      ∧ (∀ e, setup = .error e →
          extract_proposal_data_full setup chain v now pid = .error e) := by
  refine ⟨?_, ?_, ?_, ?_⟩
  · rintro u rfl
    rfl
  · cases chain <;> rfl
  · rintro e rfl
    rfl
  · rintro e rfl
    rfl

/-- Witness for C9 (amended): with a succeeded setup and a failing chain,
the call returns — it does not raise — exactly the fallback record. -/
theorem extract_total_after_setup_witness :
    ((Except.ok () : Except String Unit) = .ok ())
      ∧ ((Except.error "boom" : Except String Extracted) = .error "boom")
      ∧ extract_proposal_data_full (.ok ()) (.error "boom") (some "Acme Corp") "2024" 4 =
          .ok { id := 4, vendor_name := "Acme Corp"
                project_name := "Project Analysis Failed", time_stamp := "2024", price := 0
                delivery_timeline := "Could not extract timeline"
                scope_summary := "Could not extract scope"
                risks := "Could not extract risks" } := by
  refine ⟨rfl, rfl, ?_⟩
  have h := extract_total_after_setup (.ok ()) (.error "boom") (some "Acme Corp") "2024" 4
  rw [h.1 () rfl, h.2.2.1 "boom" rfl]
  rfl

/-- Counterexample to C10 as stated: in `envC` the directory listing is
`["a.pdf", "b.pdf"]` and `b.pdf` is newly extracted, yet its proposal's id
is 1 — the 1-based position of `b.pdf` among the successfully loaded PDFs
— not 2, its 1-based position in the directory listing (`a.pdf` failed to
load and was skipped before enumeration). -/
theorem process_id_not_dir_position_cex :
    envC.files = ["a.pdf", "b.pdf"]
      ∧ (process_pdf_proposals envC).1.map (fun pr => (pr.1, pr.2.id)) = [("b.pdf", 1)] :=
  ⟨rfl, by decide⟩

/-- C10 (amended): the returned batch is, in order, the per-file outcome
of the loaded PDFs enumerated from 1 — a newly extracted proposal's id
equals its 1-based enumeration position among the successfully loaded
PDFs, while a proposal loaded from a saved JSON keeps the id stored there
— and consequently ids within a single returned batch are not guaranteed
unique when the set of PDF files has changed between runs (`envD`
exhibits a duplicate). -/
theorem process_ids_enumeration (env : PdfEnv) :
    (process_pdf_proposals env).1 =
        (List.enumFrom 1 (load_pdf_files env).1).filterMap (itemOutcome env)
      ∧ (∀ i path pdf p, itemOutcome env (i, (path, pdf)) = some (path, p) →
          (env.cached path = none → p.id = i)
            ∧ ∀ q, env.cached path = some (.ok q) → p = q)
      ∧ ¬ ((process_pdf_proposals envD).1.map fun pr => pr.2.id).Nodup := by
  refine ⟨processLoop_fst env _ 1, ?_, by decide⟩
  intro i path pdf p hout
  constructor
  · intro hc
    simp only [itemOutcome, hc, Option.some.injEq, Prod.mk.injEq] at hout
    rw [← hout.2]
    cases env.chain pdf.content <;> rfl
  · intro q hc
    simp only [itemOutcome, hc, Option.some.injEq, Prod.mk.injEq] at hout
    exact hout.2.symm

/-- Witness for C10 (amended), at the environment `envD` and the new file
`b.pdf` enumerated at position 2: its extracted proposal's id is 2. -/
theorem process_ids_enumeration_witness :
    envD.cached "b.pdf" = none
      ∧ itemOutcome envD (2, ("b.pdf", pdfStub)) =
          some ("b.pdf", extract_proposal_data_simple (envD.chain pdfStub.content)
            (some pdfStub.vendor_name) envD.now 2)
      ∧ (extract_proposal_data_simple (envD.chain pdfStub.content)
          (some pdfStub.vendor_name) envD.now 2).id = 2 :=
  ⟨by decide,
   by decide,
   ((process_ids_enumeration envD).2.1 2 "b.pdf" pdfStub _ (by decide)).1 (by decide)⟩

end Procurement
